import Mathlib

/-
Verification of the CP-SAT process-placement scheduler (src/main.py).

The constraint builder of `main` is shallowly embedded below: every
constraint family that `model.Add` / `model.AddBoolOr` emits is rendered as
a decidable proposition over an assignment `x : ℕ → ℕ → ℕ → Bool`
(`x p r s = true` means replica `r` of process `p` sits on server `s`,
mirroring the CP-SAT booleans `proc_p_replica_r_server_s`).  A successful
solve (status OPTIMAL or FEASIBLE) returns an assignment satisfying every
emitted constraint, so "in every successful solve, P holds" is rendered as
"every assignment satisfying `SolveSat` satisfies P".

Python floats are modelled as exact fractions (`Frac` below): an integer
numerator and a non-negative integer denominator, kept unnormalized so that
every operation is plain integer arithmetic and evaluates inside `decide`.
`int(...)` is truncation toward zero, as in Python.
-/

set_option synthInstance.maxSize 2048

namespace Scheduler

/-- Exact fraction standing for a Python float: `num / den`.  All
constructors below keep `den` non-negative (`den = 0` only arises from a
division by zero, which would raise in Python and is not exercised). -/
structure Frac where
  num : ℤ
  den : ℤ

/-- Build a fraction, moving a negative sign from the denominator into the
numerator so that `den` stays non-negative. -/
def Frac.make (n d : ℤ) : Frac :=
  if d < 0 then ⟨-n, -d⟩ else ⟨n, d⟩

/-- Fraction addition. -/
def Frac.add (f g : Frac) : Frac :=
  Frac.make (f.num * g.den + g.num * f.den) (f.den * g.den)

/-- Fraction multiplication. -/
def Frac.mul (f g : Frac) : Frac :=
  Frac.make (f.num * g.num) (f.den * g.den)

/-- Fraction division. -/
def Frac.div (f g : Frac) : Frac :=
  Frac.make (f.num * g.den) (f.den * g.num)

instance : Add Frac := ⟨Frac.add⟩

instance : Mul Frac := ⟨Frac.mul⟩

instance : Div Frac := ⟨Frac.div⟩

/-- Negation of a fraction. -/
def Frac.neg (f : Frac) : Frac := ⟨-f.num, f.den⟩

/-- The integer `n` as a fraction. -/
def Frac.ofInt (n : ℤ) : Frac := ⟨n, 1⟩

/-- The natural number `n` as a fraction. -/
def Frac.ofNat (n : ℕ) : Frac := ⟨(n : ℤ), 1⟩

instance (n : ℕ) : OfNat Frac n := ⟨Frac.ofNat n⟩

/-- Semantic equality of fractions (cross multiplication). -/
def Frac.eqv (f g : Frac) : Prop := f.num * g.den = g.num * f.den

instance (f g : Frac) : Decidable (f.eqv g) :=
  inferInstanceAs (Decidable (_ = _))

/-- Python `int(...)` on a float: truncation toward zero.  `Int.tdiv`
truncates toward zero and our denominators are non-negative. -/
def fracToInt (f : Frac) : ℤ := f.num.tdiv f.den

/-- Floor of a fraction (used only by the spec-side `round`). -/
def Frac.floor (f : Frac) : ℤ := f.num.fdiv f.den

/-- Python `sum(...)` over float terms. -/
def fracSum (l : List Frac) : Frac := l.foldr (· + ·) (Frac.ofNat 0)

/-- Python `str.strip(c)`: remove leading and trailing occurrences of `c`. -/
def stripChar (c : Char) (v : List Char) : List Char :=
  ((v.dropWhile (· = c)).reverse.dropWhile (· = c)).reverse

/-- Value of a non-empty all-digit string, `none` on any other input. -/
def digitsVal (v : List Char) : Option ℕ :=
  if v.isEmpty then none
  else v.foldl
    (fun acc c => acc.bind fun n =>
      if c.isDigit then some (10 * n + (c.toNat - 48)) else none)
    (some 0)

/-- Python `int(string)`: optional sign followed by digits, `none` when the
parse fails (modelling the `ValueError`).  Surrounding whitespace and digit
underscores, which CPython also accepts, are not modelled; no claim
exercises them. -/
def pyIntOfStr (v : List Char) : Option ℤ :=
  match v with
  | '-' :: rest => (digitsVal rest).map (fun n => -(n : ℤ))
  | '+' :: rest => (digitsVal rest).map (fun n => (n : ℤ))
  | _ => (digitsVal v).map (fun n => (n : ℤ))

/-- Unsigned part of Python `float(string)`: `digits`, `digits.`, `.digits`
or `digits.digits`.  Exponent forms, which CPython also accepts, are not
modelled; no claim exercises them. -/
def pyFloatMag (v : List Char) : Option Frac :=
  if v.contains '.' then
    let ip := v.takeWhile (· ≠ '.')
    let fp := (v.dropWhile (· ≠ '.')).drop 1
    if fp.contains '.' then none
    else if ip.isEmpty ∧ fp.isEmpty then none
    else do
      let iv ← if ip.isEmpty then some 0 else digitsVal ip
      let fv ← if fp.isEmpty then some 0 else digitsVal fp
      some ⟨(iv : ℤ) * 10 ^ fp.length + (fv : ℤ), (10 : ℤ) ^ fp.length⟩
  else (digitsVal v).map (fun n => ⟨(n : ℤ), 1⟩)

/-- Python `float(string)` with an optional sign, `none` when the parse
fails (modelling the `ValueError`). -/
def pyFloatOfStr (v : List Char) : Option Frac :=
  match v with
  | '-' :: rest => (pyFloatMag rest).map Frac.neg
  | '+' :: rest => pyFloatMag rest
  | _ => pyFloatMag v

/-- A scalar configuration value as read from YAML: a string or a number. -/
inductive CVal where
  | str (v : List Char)
  | num (v : Frac)

/-- `safe_percentage` (main.py lines 17-28): `None` gives the default, a
string containing `%` is stripped of `%` and parsed with `int`, any other
string is parsed with `int`, and a number is truncated with `int`; a failed
parse falls back to the default. -/
def safe_percentage (value : Option CVal) (dflt : ℤ) : ℤ :=
  match value with
  | none => dflt
  | some (.str v) =>
      if '%' ∈ v then (pyIntOfStr (stripChar '%' v)).getD dflt
      else (pyIntOfStr v).getD dflt
  | some (.num q) => fracToInt q

/-- A server record (servers.yml); missing optional keys are the defaults. -/
structure Server where
  name : String
  ram : Frac
  cpu : Frac
  disk : Frac
  bandwidth : Frac
  geoLocation : Option String := none
  os : Option String := none
  processScope : List String := []
  energyCost : Option Frac := none
  greenEnergy : Bool := false

/-- A process record (processes.yml); missing optional keys are the
defaults (`process.get('replicas', 1)` and friends). -/
structure Process where
  name : String
  ram : Frac
  disk : Frac
  bandwidth : Frac
  cpu : Option Frac := none
  replicas : ℕ := 1
  locationPolicy : Option String := none
  location : List String := []
  os : Option String := none
  scope : Option String := none
  affinity : List String := []
  nonAffinity : List String := []
  critical : Bool := false

/-- The global constraints record (constraints.yml). -/
structure Constraints where
  maxRamUsagePerServer : Option CVal := none
  maxCpuUsagePerServer : Option CVal := none
  maxDiskUsagePerServer : Option CVal := none
  maxNetworkBandwidthPerServer : Option CVal := none
  maxProcessesPerServer : Option ℕ := none
  isolateCriticalProcesses : Bool := false
  maxEnergyConsumptionPerServer : Option Frac := none
  maxDailyCost : Option CVal := none
  serversForRedundancy : ℕ := 0
  loadBalancingStrategy : Option String := none

/-- One problem instance: the three configuration documents. -/
structure Inst where
  servers : List Server
  processes : List Process
  constraints : Constraints

/-- Fallback server for out-of-range indexing (never reached in bounds). -/
def dfltServer : Server :=
  { name := "", ram := 0, cpu := 0, disk := 0, bandwidth := 0 }

/-- Fallback process for out-of-range indexing (never reached in bounds). -/
def dfltProcess : Process :=
  { name := "", ram := 0, disk := 0, bandwidth := 0 }

/-- Number of servers. -/
def nS (I : Inst) : ℕ := I.servers.length

/-- Number of processes. -/
def nP (I : Inst) : ℕ := I.processes.length

/-- The server at index `s`. -/
def srv (I : Inst) (s : ℕ) : Server := I.servers.getD s dfltServer

/-- The process at index `p`. -/
def prc (I : Inst) (p : ℕ) : Process := I.processes.getD p dfltProcess

/-- The scaling factor `SCALE = 1000` (main.py line 83). -/
def SCALE : Frac := Frac.ofNat 1000

/-- An assignment of the CP-SAT booleans: `x p r s = true` iff replica `r`
of process `p` is placed on server `s`. -/
abbrev Assign := ℕ → ℕ → ℕ → Bool

/-- Effective replica count (main.py lines 97-100 and identical
recomputations): `replicas * len(location)` for a redundant policy with a
non-empty location list, else `replicas`. -/
def effectiveReplicas (P : Process) : ℕ :=
  if P.locationPolicy = some "redundant" ∧ P.location ≠ [] then
    P.replicas * P.location.length
  else P.replicas

/-- Count contribution of one boolean variable. -/
def bcount (b : Bool) : ℕ := cond b 1 0

/-- An assignment may only set variables the model creates: process index
below `len(processes)`, replica index below the effective replica count
(the loop of main.py lines 103-107), server index below `len(servers)`. -/
def Supported (I : Inst) (x : Assign) : Prop :=
  ∀ p r s, x p r s = true → p < nP I ∧ r < effectiveReplicas (prc I p) ∧ s < nS I

/-- Constraint 4.1 (main.py lines 112-122): each of the effective replicas
is assigned to exactly one server. -/
abbrev UniqueOK (I : Inst) (x : Assign) : Prop :=
  ∀ p < nP I, ∀ r < effectiveReplicas (prc I p),
    (∑ s ∈ Finset.range (nS I), bcount (x p r s)) = 1

/-- Python `server_location not in allowed_locations`, negated: a missing
(`None`) location is never a member. -/
def optLocMem (g : Option String) (L : List String) : Bool :=
  match g with
  | some v => L.contains v
  | none => false

/-- Constraint 4.2, location filter (main.py lines 135-140): with a
non-empty allowed-location list, a replica may not sit on a server whose
geographical location is outside the list. -/
abbrev LocationOK (I : Inst) (x : Assign) : Prop :=
  ∀ p < nP I, (prc I p).location ≠ [] →
    ∀ r < effectiveReplicas (prc I p), ∀ s < nS I,
      optLocMem (srv I s).geoLocation (prc I p).location = false → x p r s = false

/-- Indices of the servers in a given location (main.py lines 150-151). -/
def locationServers (I : Inst) (loc : String) : List ℕ :=
  (List.range (nS I)).filter (fun s => decide ((srv I s).geoLocation = some loc))

/-- The location pinned to chunk `i` of a redundant process. -/
def chunkLocation (P : Process) (i : ℕ) : String := P.location.getD i ""

/-- Constraint 4.2, redundancy partition (main.py lines 143-165): for each
chunk `i` of a redundant process WITH a non-empty server list in its
location (`if location_servers:`), the chunk places exactly `replicas`
replicas on that location's servers, and each chunk replica sums to one
over that location's servers.  A location with no servers gets no chunk
constraint at all. -/
abbrev RedundantChunkOK (I : Inst) (x : Assign) : Prop :=
  ∀ p < nP I, (prc I p).locationPolicy = some "redundant" → (prc I p).location ≠ [] →
    ∀ i < (prc I p).location.length,
      locationServers I (chunkLocation (prc I p) i) ≠ [] →
        ((∑ r ∈ Finset.Ico (i * (prc I p).replicas) ((i + 1) * (prc I p).replicas),
            ((locationServers I (chunkLocation (prc I p) i)).map
               (fun s => bcount (x p r s))).sum) = (prc I p).replicas
         ∧ ∀ r ∈ Finset.Ico (i * (prc I p).replicas) ((i + 1) * (prc I p).replicas),
             ((locationServers I (chunkLocation (prc I p) i)).map
                (fun s => bcount (x p r s))).sum = 1)

/-- Constraint 4.2, in-chunk distinctness (main.py lines 168-178): when the
policy is redundant, the total replica count exceeds one and the base count
exceeds one, two replicas of the same chunk never share a server. -/
abbrev RedundantDistinctOK (I : Inst) (x : Assign) : Prop :=
  ∀ p < nP I, (prc I p).locationPolicy = some "redundant" →
    1 < effectiveReplicas (prc I p) →
      ∀ i < (prc I p).location.length, 1 < (prc I p).replicas →
        ∀ r1 ∈ Finset.Ico (i * (prc I p).replicas) ((i + 1) * (prc I p).replicas),
          ∀ r2 ∈ Finset.Ico (r1 + 1) ((i + 1) * (prc I p).replicas),
            ∀ s < nS I, bcount (x p r1 s) + bcount (x p r2 s) ≤ 1

/-- Constraint 4.2, single-policy distinctness (main.py lines 181-186). -/
abbrev SingleDistinctOK (I : Inst) (x : Assign) : Prop :=
  ∀ p < nP I, (prc I p).locationPolicy = some "single" → 1 < (prc I p).replicas →
    ∀ r1 < (prc I p).replicas, ∀ r2 < (prc I p).replicas, r1 < r2 →
      ∀ s < nS I, bcount (x p r1 s) + bcount (x p r2 s) ≤ 1

/-- The OS guard of main.py lines 190-196: both fields truthy (set and
non-empty) and different. -/
def osConflict (po so : Option String) : Bool :=
  match po, so with
  | some o, some o2 => o != "" && o2 != "" && o2 != o
  | _, _ => false

/-- Constraint 4.3, OS compatibility (main.py lines 188-197).  NOTE: the
loop runs over `range(process.get('replicas', 1))`, the BASE replica count,
not the effective one. -/
abbrev OsOK (I : Inst) (x : Assign) : Prop :=
  ∀ p < nP I, ∀ r < (prc I p).replicas, ∀ s < nS I,
    osConflict (prc I p).os (srv I s).os = true → x p r s = false

/-- The scope guard of main.py lines 201-207: process scope truthy, server
scope list non-empty and not containing it. -/
def scopeConflict (psc : Option String) (ss : List String) : Bool :=
  match psc with
  | some sc => sc != "" && !ss.isEmpty && !(ss.contains sc)
  | none => false

/-- Constraint 4.4, process scope (main.py lines 199-208); base-replica
loop as in the OS family. -/
abbrev ScopeOK (I : Inst) (x : Assign) : Prop :=
  ∀ p < nP I, ∀ r < (prc I p).replicas, ∀ s < nS I,
    scopeConflict (prc I p).scope (srv I s).processScope = true → x p r s = false

/-- All process names, in index order (main.py lines 212-219 builds the
name-to-indices map from these). -/
def processNames (I : Inst) : List String := I.processes.map (·.name)

/-- `process_name_to_idx[q]`: the indices of the processes named `q`. -/
def processIndicesNamed (I : Inst) (q : String) : List ℕ :=
  (List.range (nP I)).filter (fun j => decide ((prc I j).name = q))

/-- The `affinity_replicas_on_server` literal list for `(p, q)` (main.py
lines 250-260): every (process index, base replica index) pair of a
process named `q` other than `p` itself. -/
def affinityTargets (I : Inst) (p : ℕ) (q : String) : List (ℕ × ℕ) :=
  ((processIndicesNamed I q).filter (fun j => decide (j ≠ p))).flatMap
    (fun j => (List.range ((prc I j).replicas)).map (fun r2 => (j, r2)))

/-- The warnings of main.py line 231: one per (process, affinity target)
pair whose target name matches no process; the constraint is dropped and
building continues. -/
def affinityWarnings (I : Inst) : List (String × String) :=
  (List.range (nP I)).flatMap (fun p =>
    (((prc I p).affinity).filter (fun q => decide (q ∉ processNames I))).map
      (fun q => ((prc I p).name, q)))

/-- Constraint 4.5, affinity (main.py lines 222-271): for each base replica
of `p` and each server, when the target list is non-empty (`if not
affinity_replicas_on_server: continue`), the clause
`NOT x[p,r1,s] OR (some target pair on s)` is added. -/
abbrev AffinityOK (I : Inst) (x : Assign) : Prop :=
  ∀ p < nP I, ∀ q ∈ (prc I p).affinity, q ∈ processNames I →
    ∀ r1 < (prc I p).replicas, ∀ s < nS I,
      affinityTargets I p q ≠ [] → x p r1 s = true →
        ∃ t ∈ affinityTargets I p q, x t.1 t.2 s = true

/-- Constraint 4.5, non-affinity (main.py lines 274-303): pairwise
exclusion against every other process named `q`, base replicas on each
side; unresolved names are warned about and skipped. -/
abbrev NonAffinityOK (I : Inst) (x : Assign) : Prop :=
  ∀ p < nP I, ∀ q ∈ (prc I p).nonAffinity, q ∈ processNames I →
    ∀ r1 < (prc I p).replicas, ∀ j ∈ processIndicesNamed I q, j ≠ p →
      ∀ r2 < (prc I j).replicas, ∀ s < nS I,
        bcount (x p r1 s) + bcount (x j r2 s) ≤ 1

/-- Scaled RAM demand `int(process.ram * SCALE)` (main.py line 319). -/
def ramDemand (P : Process) : ℤ := fracToInt (P.ram * SCALE)

/-- Scaled CPU demand (main.py lines 326-328): `process.cpu` when present,
else the server-dependent `(process.ram / server.ram) * server.cpu`. -/
def cpuDemand (P : Process) (S : Server) : ℤ :=
  fracToInt ((P.cpu.getD (P.ram / S.ram * S.cpu)) * SCALE)

/-- Scaled disk demand (main.py line 335). -/
def diskDemand (P : Process) : ℤ := fracToInt (P.disk * SCALE)

/-- Scaled bandwidth demand (main.py line 342). -/
def bandwidthDemand (P : Process) : ℤ := fracToInt (P.bandwidth * SCALE)

/-- `ram_usage[s]` (main.py lines 318-322).  NOTE: the inner loop runs over
`range(process.get('replicas', 1))`, the BASE replica count, not the
effective one; so do all the usage sums below. -/
def ram_usage (I : Inst) (x : Assign) (s : ℕ) : ℤ :=
  ∑ p ∈ Finset.range (nP I), ∑ r ∈ Finset.range ((prc I p).replicas),
    cond (x p r s) (ramDemand (prc I p)) 0

/-- `cpu_usage[s]` (main.py lines 325-331). -/
def cpu_usage (I : Inst) (x : Assign) (s : ℕ) : ℤ :=
  ∑ p ∈ Finset.range (nP I), ∑ r ∈ Finset.range ((prc I p).replicas),
    cond (x p r s) (cpuDemand (prc I p) (srv I s)) 0

/-- `disk_usage[s]` (main.py lines 334-338). -/
def disk_usage (I : Inst) (x : Assign) (s : ℕ) : ℤ :=
  ∑ p ∈ Finset.range (nP I), ∑ r ∈ Finset.range ((prc I p).replicas),
    cond (x p r s) (diskDemand (prc I p)) 0

/-- `bandwidth_usage[s]` (main.py lines 341-345). -/
def bandwidth_usage (I : Inst) (x : Assign) (s : ℕ) : ℤ :=
  ∑ p ∈ Finset.range (nP I), ∑ r ∈ Finset.range ((prc I p).replicas),
    cond (x p r s) (bandwidthDemand (prc I p)) 0

/-- `process_count[s]` (main.py lines 348-352), again base replicas. -/
def process_count (I : Inst) (x : Assign) (s : ℕ) : ℕ :=
  ∑ p ∈ Finset.range (nP I), ∑ r ∈ Finset.range ((prc I p).replicas),
    bcount (x p r s)

/-- Scaled RAM cap `int(server.ram * pct * SCALE / 100)` (main.py 355-356). -/
def ramCap (I : Inst) (s : ℕ) : ℤ :=
  fracToInt ((srv I s).ram
    * Frac.ofInt (safe_percentage I.constraints.maxRamUsagePerServer 100)
    * SCALE / Frac.ofNat 100)

/-- Scaled CPU cap (main.py 358-359). -/
def cpuCap (I : Inst) (s : ℕ) : ℤ :=
  fracToInt ((srv I s).cpu
    * Frac.ofInt (safe_percentage I.constraints.maxCpuUsagePerServer 100)
    * SCALE / Frac.ofNat 100)

/-- Scaled disk cap (main.py 361-362). -/
def diskCap (I : Inst) (s : ℕ) : ℤ :=
  fracToInt ((srv I s).disk
    * Frac.ofInt (safe_percentage I.constraints.maxDiskUsagePerServer 100)
    * SCALE / Frac.ofNat 100)

/-- Scaled bandwidth cap (main.py 364-365). -/
def bandwidthCap (I : Inst) (s : ℕ) : ℤ :=
  fracToInt ((srv I s).bandwidth
    * Frac.ofInt (safe_percentage I.constraints.maxNetworkBandwidthPerServer 100)
    * SCALE / Frac.ofNat 100)

/-- `sys.maxsize`, the default of `max-processes-per-server` (line 368). -/
def sysMaxsize : ℕ := 9223372036854775807

/-- The per-server process cap (main.py lines 368-369). -/
def maxProcs (I : Inst) : ℕ := I.constraints.maxProcessesPerServer.getD sysMaxsize

/-- Constraint 4.6, resources (main.py lines 354-369): the four capacity
caps and the process-count cap per server. -/
abbrev ResourceOK (I : Inst) (x : Assign) : Prop :=
  ∀ s < nS I,
    ram_usage I x s ≤ ramCap I s ∧
    cpu_usage I x s ≤ cpuCap I s ∧
    disk_usage I x s ≤ diskCap I s ∧
    bandwidth_usage I x s ≤ bandwidthCap I s ∧
    process_count I x s ≤ maxProcs I

/-- Constraint 4.6bis, critical isolation (main.py lines 372-385). -/
abbrev CriticalOK (I : Inst) (x : Assign) : Prop :=
  I.constraints.isolateCriticalProcesses = true →
    ∀ s < nS I, ∀ p1 < nP I, (prc I p1).critical = true →
      ∀ r1 < (prc I p1).replicas, ∀ p2 < nP I, (prc I p2).critical = false →
        ∀ r2 < (prc I p2).replicas,
          bcount (x p1 r1 s) + bcount (x p2 r2 s) ≤ 1

/-- Truthiness of `max-energy-consumption-per-server` (`if max_energy:`,
main.py line 389): present and non-zero. -/
def energyActive (c : Constraints) : Bool :=
  match c.maxEnergyConsumptionPerServer with
  | some e => e.num != 0
  | none => false

/-- The scaled energy cap `int(max_energy * SCALE)` (main.py line 402). -/
def energyCapVal (c : Constraints) : ℤ :=
  match c.maxEnergyConsumptionPerServer with
  | some e => fracToInt (e * SCALE)
  | none => 0

/-- Per-placement energy term (main.py lines 393-398); `log1p` stands for
`fun v => math.log(1 + v)`, kept abstract because the logarithm is
transcendental — every claim below either leaves it universally abstract
or concerns an instance with no energy cap. -/
def energyDemand (log1p : Frac → Frac) (P : Process) (S : Server) : ℤ :=
  fracToInt ((P.ram / S.ram * S.cpu) * Frac.ofNat 10 * SCALE + log1p P.ram * SCALE)

/-- `energy_usage` for a server (main.py lines 392-401), base replicas. -/
def energy_usage (log1p : Frac → Frac) (I : Inst) (x : Assign) (s : ℕ) : ℤ :=
  ∑ p ∈ Finset.range (nP I), ∑ r ∈ Finset.range ((prc I p).replicas),
    cond (x p r s) (energyDemand log1p (prc I p) (srv I s)) 0

/-- Constraint 4.7, energy (main.py lines 387-402): emitted only when the
configured value is truthy. -/
abbrev EnergyOK (log1p : Frac → Frac) (I : Inst) (x : Assign) : Prop :=
  energyActive I.constraints = true →
    ∀ s < nS I, energy_usage log1p I x s ≤ energyCapVal I.constraints

/-- The budget resolution of main.py lines 408-414: a string containing `%`
becomes `100 * safe_percentage(value, 100) / 100` dollars (percentage of a
default $100 budget); anything else goes through `float`, whose failure
(`none`) aborts the whole cost block via the `except` at line 464. -/
def resolveMaxDailyCost : CVal → Option Frac
  | .str v =>
      if '%' ∈ v then
        some (Frac.ofNat 100 * Frac.ofInt (safe_percentage (some (.str v)) 100)
          / Frac.ofNat 100)
      else pyFloatOfStr v
  | .num q => some q

/-- The effective daily-cost cap: configured value resolved to dollars. -/
def dailyCostCap (c : Constraints) : Option Frac :=
  c.maxDailyCost.bind resolveMaxDailyCost

/-- Per-placement cost in cents,
`int((cpu*10 + ram) * 24 / 1000 * energy_cost * 100)` (main.py 437-446). -/
def costDemand (P : Process) (ec : Frac) : ℤ :=
  fracToInt ((P.cpu.getD 1 * Frac.ofNat 10 + P.ram) * Frac.ofNat 24
    / Frac.ofNat 1000 * ec * Frac.ofNat 100)

/-- Idle surcharge `int(50 * 24 / 1000 * energy_cost * 100)` (line 449). -/
def idleFactor (ec : Frac) : ℤ :=
  fracToInt (Frac.ofNat 50 * Frac.ofNat 24 / Frac.ofNat 1000 * ec * Frac.ofNat 100)

/-- Cost contribution of one server (main.py lines 419-458): only servers
with a truthy `energy-cost` contribute; the boolean `server_is_used` is
forced to `process_count ≥ 1` by the two `OnlyEnforceIf` constraints at
lines 433-434, so the idle surcharge is rendered as a conditional term. -/
def serverDailyCost (I : Inst) (x : Assign) (s : ℕ) : ℤ :=
  match (srv I s).energyCost with
  | none => 0
  | some ec =>
      if ec.num = 0 then 0
      else
        (∑ p ∈ Finset.range (nP I), ∑ r ∈ Finset.range ((prc I p).replicas),
          cond (x p r s) (costDemand (prc I p) ec) 0)
        + (if 1 ≤ process_count I x s then idleFactor ec else 0)

/-- `total_energy_cost` (main.py lines 417-458). -/
def total_energy_cost (I : Inst) (x : Assign) : ℤ :=
  ∑ s ∈ Finset.range (nS I), serverDailyCost I x s

/-- Constraint 4.8, daily cost (main.py lines 405-462):
`total_energy_cost ≤ int(max_daily_cost * 100)` cents when a cap is
configured and resolves. -/
abbrev DailyCostOK (I : Inst) (x : Assign) : Prop :=
  (dailyCostCap I.constraints).isSome = true →
    total_energy_cost I x ≤ fracToInt (((dailyCostCap I.constraints).getD 0) * Frac.ofNat 100)

/-- Number of servers with at least one (base) replica: the booleans
`is_server_s_used` of main.py lines 477-492 are forced to
`processes_on_server ≥ 1` by the two `OnlyEnforceIf` constraints; NOTE
`processes_on_server` again sums only the base replicas (line 485). -/
def usedServerCount (I : Inst) (x : Assign) : ℕ :=
  ((Finset.range (nS I)).filter (fun s => 1 ≤ process_count I x s)).card

/-- Constraint 4.9, forced idle (main.py lines 472-498):
`num_used_servers ≤ len(servers) - servers_for_redundancy` when the
configured count is positive.  Python subtraction may go negative, hence
the integer form. -/
abbrev ForcedIdleOK (I : Inst) (x : Assign) : Prop :=
  0 < I.constraints.serversForRedundancy →
    (usedServerCount I x : ℤ) ≤ (nS I : ℤ) - (I.constraints.serversForRedundancy : ℤ)

/-- `total_ram = sum(server.ram)` (main.py line 571). -/
def totalRamServers (I : Inst) : Frac := fracSum (I.servers.map (·.ram))

/-- `total_cpu = sum(server.cpu)` (main.py line 572). -/
def totalCpuServers (I : Inst) : Frac := fracSum (I.servers.map (·.cpu))

/-- `capacity_ratio` (main.py line 576). -/
def capacityRatio (I : Inst) (s : ℕ) : Frac :=
  ((srv I s).ram / totalRamServers I + (srv I s).cpu / totalCpuServers I) / Frac.ofNat 2

/-- `sum(p.get('replicas', 1) for p in processes)` (main.py line 577): the
sum of BASE replica counts. -/
def sumBaseReplicas (I : Inst) : ℕ := (I.processes.map (·.replicas)).sum

/-- `target_process_count = int(sum(...) * capacity_ratio)` (line 577):
float truncation of base-replica total times capacity ratio. -/
def targetProcessCount (I : Inst) (s : ℕ) : ℤ :=
  fracToInt (Frac.ofNat (sumBaseReplicas I) * capacityRatio I s)

/-- The feasibility content of the load-balancing strategies (main.py
lines 540-594).  round-robin: the auxiliary `max_processes` variable has
domain [0,100] and bounds every count.  bin-packing: its booleans are
forced and add no feasibility content.  weighted-capacity: the deviation
variable has domain [-100,100] and is forced to `count - target`; an
`abs_deviation ∈ [0,100]` with `abs ≥ dev` and `abs ≥ -dev` exists exactly
when the deviation itself lies in [-100,100]. -/
abbrev LoadBalanceOK (I : Inst) (x : Assign) : Prop :=
  (I.constraints.loadBalancingStrategy = some "round-robin" →
     ∀ s < nS I, process_count I x s ≤ 100) ∧
  (I.constraints.loadBalancingStrategy = some "weighted-capacity" →
     ∀ s < nS I,
       -100 ≤ (process_count I x s : ℤ) - targetProcessCount I s ∧
       (process_count I x s : ℤ) - targetProcessCount I s ≤ 100)

/-- Every decidable constraint the builder emits. -/
abbrev SolveCore (log1p : Frac → Frac) (I : Inst) (x : Assign) : Prop :=
  UniqueOK I x ∧ LocationOK I x ∧ RedundantChunkOK I x ∧
  RedundantDistinctOK I x ∧ SingleDistinctOK I x ∧ OsOK I x ∧ ScopeOK I x ∧
  AffinityOK I x ∧ NonAffinityOK I x ∧ ResourceOK I x ∧ CriticalOK I x ∧
  EnergyOK log1p I x ∧ DailyCostOK I x ∧ ForcedIdleOK I x ∧ LoadBalanceOK I x

/-- A successful solve (status OPTIMAL or FEASIBLE): an assignment over the
model's variables satisfying every emitted constraint. -/
def SolveSat (log1p : Frac → Frac) (I : Inst) (x : Assign) : Prop :=
  Supported I x ∧ SolveCore log1p I x

/-- Stand-in for `fun v => math.log(1 + v)` used on instances that set no
energy cap, where `EnergyOK` is vacuous and the value never matters. -/
def logStub : Frac → Frac := fun _ => 0

/-- Spec-side RAM usage summed over ALL EFFECTIVE replicas, as claim C1
words it (the source sums only base replicas, see `ram_usage`). -/
def effRamUsage (I : Inst) (x : Assign) (s : ℕ) : ℤ :=
  ∑ p ∈ Finset.range (nP I), ∑ r ∈ Finset.range (effectiveReplicas (prc I p)),
    cond (x p r s) (ramDemand (prc I p)) 0

/-- Spec-side CPU usage over all effective replicas. -/
def effCpuUsage (I : Inst) (x : Assign) (s : ℕ) : ℤ :=
  ∑ p ∈ Finset.range (nP I), ∑ r ∈ Finset.range (effectiveReplicas (prc I p)),
    cond (x p r s) (cpuDemand (prc I p) (srv I s)) 0

/-- Spec-side disk usage over all effective replicas. -/
def effDiskUsage (I : Inst) (x : Assign) (s : ℕ) : ℤ :=
  ∑ p ∈ Finset.range (nP I), ∑ r ∈ Finset.range (effectiveReplicas (prc I p)),
    cond (x p r s) (diskDemand (prc I p)) 0

/-- Spec-side bandwidth usage over all effective replicas. -/
def effBandwidthUsage (I : Inst) (x : Assign) (s : ℕ) : ℤ :=
  ∑ p ∈ Finset.range (nP I), ∑ r ∈ Finset.range (effectiveReplicas (prc I p)),
    cond (x p r s) (bandwidthDemand (prc I p)) 0

/-- Claim C1 as stated: on every server the scaled demands of ALL effective
replicas stay within each of the four scaled percentage caps. -/
abbrev ClaimCapacity (I : Inst) (x : Assign) : Prop :=
  ∀ s < nS I,
    effRamUsage I x s ≤ ramCap I s ∧
    effCpuUsage I x s ≤ cpuCap I s ∧
    effDiskUsage I x s ≤ diskCap I s ∧
    effBandwidthUsage I x s ≤ bandwidthCap I s

/-- Claim C3 as stated: for every redundant process, EVERY chunk `i` has
exactly `replicas` replicas on servers of its location, every replica of
the chunk sits only on servers of that location, and for `replicas > 1` no
two chunk replicas share a server — with no exception for locations that
contain no server. -/
abbrev ClaimRedundantChunks (I : Inst) (x : Assign) : Prop :=
  ∀ p < nP I, (prc I p).locationPolicy = some "redundant" → (prc I p).location ≠ [] →
    ∀ i < (prc I p).location.length,
      ((∑ r ∈ Finset.Ico (i * (prc I p).replicas) ((i + 1) * (prc I p).replicas),
          ((locationServers I (chunkLocation (prc I p) i)).map
             (fun s => bcount (x p r s))).sum) = (prc I p).replicas
       ∧ (∀ r ∈ Finset.Ico (i * (prc I p).replicas) ((i + 1) * (prc I p).replicas),
            ∀ s < nS I, x p r s = true →
              (srv I s).geoLocation = some (chunkLocation (prc I p) i))
       ∧ (1 < (prc I p).replicas →
            ∀ r1 ∈ Finset.Ico (i * (prc I p).replicas) ((i + 1) * (prc I p).replicas),
              ∀ r2 ∈ Finset.Ico (r1 + 1) ((i + 1) * (prc I p).replicas),
                ∀ s < nS I, bcount (x p r1 s) + bcount (x p r2 s) ≤ 1))

/-- Claim C4 as stated: the OS filter covers EVERY EFFECTIVE replica. -/
abbrev ClaimOsCompat (I : Inst) (x : Assign) : Prop :=
  ∀ p < nP I, ∀ r < effectiveReplicas (prc I p), ∀ s < nS I,
    osConflict (prc I p).os (srv I s).os = true → x p r s = false

/-- Replica count of a server over ALL effective replicas, as claim C5
words it (the builder counts only base replicas, see `usedServerCount`). -/
def effProcessCount (I : Inst) (x : Assign) (s : ℕ) : ℕ :=
  ∑ p ∈ Finset.range (nP I), ∑ r ∈ Finset.range (effectiveReplicas (prc I p)),
    bcount (x p r s)

/-- Claim C5 as stated: with `servers-for-redundancy = k > 0`, at least `k`
servers carry zero replicas counting every effective replica. -/
abbrev ClaimForcedIdle (I : Inst) (x : Assign) : Prop :=
  0 < I.constraints.serversForRedundancy →
    (I.constraints.serversForRedundancy : ℤ) ≤
      (((Finset.range (nS I)).filter (fun s => effProcessCount I x s = 0)).card : ℤ)

/-- Claim C6 as stated: unresolved affinity targets are warned about and
dropped; resolved targets yield, for every base replica and server, the
clause "if here then some OTHER process named q has a replica here" with
no exception for an empty target list. -/
abbrev ClaimAffinity (I : Inst) (x : Assign) : Prop :=
  ∀ p < nP I, ∀ q ∈ (prc I p).affinity,
    (q ∉ processNames I → ((prc I p).name, q) ∈ affinityWarnings I) ∧
    (q ∈ processNames I → ∀ r1 < (prc I p).replicas, ∀ s < nS I,
       x p r1 s = true → ∃ t ∈ affinityTargets I p q, x t.1 t.2 s = true)

/-- The four outcomes claim C7 distinguishes for one run of `main`. -/
inductive MainOutcome
  | loadError
  | infeasible
  | feasible
  | optimal

/-- Process exit status of `python main.py` by outcome.  `main` handles
every outcome by printing and returning `None` — a load failure is caught
at lines 53-55, infeasibility prints at line 804, success prints the
report — and the module tail (lines 811-812) just calls `main()`;
`sys.exit` is never called in main.py, so the interpreter exits 0 in every
case. -/
def mainExitCode : MainOutcome → ℕ
  | .loadError => 0
  | .infeasible => 0
  | .feasible => 0
  | .optimal => 0

/-- Claim C7 as stated: zero exit on success, non-zero exit on
infeasibility or a configuration-load error. -/
abbrev ClaimExitCodes : Prop :=
  mainExitCode .feasible = 0 ∧ mainExitCode .optimal = 0 ∧
  mainExitCode .infeasible ≠ 0 ∧ mainExitCode .loadError ≠ 0

/-- Sum of EFFECTIVE replica counts, as claim C8 words the total `R`. -/
def sumEffectiveReplicas (I : Inst) : ℕ :=
  (I.processes.map effectiveReplicas).sum

/-- Round to the nearest integer (ties upward; the claim's `round`, checked
only away from ties). -/
def roundNearest (f : Frac) : ℤ := (f + Frac.make 1 2).floor

/-- The target claim C8 states: `round(R_eff * capacity_ratio)` with the
effective replica total. -/
def claimTargetProcessCount (I : Inst) (s : ℕ) : ℤ :=
  roundNearest (Frac.ofNat (sumEffectiveReplicas I) * capacityRatio I s)

/-- Claim C8's target formula, as stated, at every server. -/
abbrev ClaimWeightedTarget (I : Inst) : Prop :=
  ∀ s < nS I, targetProcessCount I s = claimTargetProcessCount I s

/-- The budget resolution of the post-solve report (main.py lines 741-748);
textually identical to the constraint-side resolution at lines 408-414. -/
def reportMaxDailyCost : CVal → Option Frac
  | .str v =>
      if '%' ∈ v then
        some (Frac.ofNat 100 * Frac.ofInt (safe_percentage (some (.str v)) 100)
          / Frac.ofNat 100)
      else pyFloatOfStr v
  | .num q => some q

/-- Counterexample instance for C1/C3: one server in location "A"; one
process with redundant policy over locations ["A", "B"] (location "B" has
no server), base replica count 1, RAM demand 3/5 of the server. -/
def I1 : Inst :=
  { servers := [{ name := "s0", ram := 1, cpu := 1, disk := 1, bandwidth := 1,
                  geoLocation := some "A" }],
    processes := [{ name := "P", ram := Frac.make 3 5, disk := Frac.make 1 10,
                    bandwidth := Frac.make 1 10,
                    locationPolicy := some "redundant", location := ["A", "B"] }],
    constraints := {} }

/-- A solver assignment for `I1`: both effective replicas (chunk "A"
replica 0 and chunk "B" replica 1) land on the single server, which is
legal because "A" is an allowed location and location "B" has no servers,
hence no chunk constraint. -/
def x1 : Assign := fun p r s =>
  decide ((p, r, s) ∈ [((0 : ℕ), (0 : ℕ), (0 : ℕ)), (0, 1, 0)])

lemma supported_I1 : Supported I1 x1 := by
  intro p r s h
  simp only [x1, List.mem_cons, List.not_mem_nil, or_false,
    decide_eq_true_eq, Prod.mk.injEq] at h
  rcases h with ⟨hp, hr, hs⟩ | ⟨hp, hr, hs⟩ <;> subst hp <;> subst hr <;> subst hs <;> decide

lemma solveSat_I1 : SolveSat logStub I1 x1 := ⟨supported_I1, by decide⟩

/-- Counterexample instance for C4: a Linux process, redundant over
["A", "B"]; the only "B" server runs Windows.  The OS filter only covers
replica indices below the base count, so chunk "B"'s replica (index 1)
must land on the Windows server. -/
def I4 : Inst :=
  { servers := [{ name := "s0", ram := 1, cpu := 1, disk := 1, bandwidth := 1,
                  geoLocation := some "A", os := some "linux" },
                { name := "s1", ram := 1, cpu := 1, disk := 1, bandwidth := 1,
                  geoLocation := some "B", os := some "windows" }],
    processes := [{ name := "P", ram := Frac.make 1 10, disk := Frac.make 1 10,
                    bandwidth := Frac.make 1 10, os := some "linux",
                    locationPolicy := some "redundant", location := ["A", "B"] }],
    constraints := {} }

/-- Solver assignment for `I4`: replica 0 on the Linux server, replica 1
(the chunk-"B" replica, unconstrained by the OS family) on the Windows
server — forced there by the chunk constraint. -/
def x4 : Assign := fun p r s =>
  decide ((p, r, s) ∈ [((0 : ℕ), (0 : ℕ), (0 : ℕ)), (0, 1, 1)])

lemma supported_I4 : Supported I4 x4 := by
  intro p r s h
  simp only [x4, List.mem_cons, List.not_mem_nil, or_false,
    decide_eq_true_eq, Prod.mk.injEq] at h
  rcases h with ⟨hp, hr, hs⟩ | ⟨hp, hr, hs⟩ <;> subst hp <;> subst hr <;> subst hs <;> decide

lemma solveSat_I4 : SolveSat logStub I4 x4 := ⟨supported_I4, by decide⟩

/-- Counterexample instance for C5: `servers-for-redundancy = 1`, two
servers, one redundant process over ["A", "B"].  The used-server booleans
count only base replicas, so the server carrying only chunk "B"'s replica
(index 1) counts as unused. -/
def I5 : Inst :=
  { servers := [{ name := "s0", ram := 1, cpu := 1, disk := 1, bandwidth := 1,
                  geoLocation := some "A" },
                { name := "s1", ram := 1, cpu := 1, disk := 1, bandwidth := 1,
                  geoLocation := some "B" }],
    processes := [{ name := "P", ram := Frac.make 1 10, disk := Frac.make 1 10,
                    bandwidth := Frac.make 1 10,
                    locationPolicy := some "redundant", location := ["A", "B"] }],
    constraints := { serversForRedundancy := 1 } }

/-- Solver assignment for `I5`: replica 0 on s0, replica 1 on s1 (forced by
the chunk constraints); every server carries an effective replica. -/
def x5 : Assign := fun p r s =>
  decide ((p, r, s) ∈ [((0 : ℕ), (0 : ℕ), (0 : ℕ)), (0, 1, 1)])

lemma supported_I5 : Supported I5 x5 := by
  intro p r s h
  simp only [x5, List.mem_cons, List.not_mem_nil, or_false,
    decide_eq_true_eq, Prod.mk.injEq] at h
  rcases h with ⟨hp, hr, hs⟩ | ⟨hp, hr, hs⟩ <;> subst hp <;> subst hr <;> subst hs <;> decide

lemma solveSat_I5 : SolveSat logStub I5 x5 := ⟨supported_I5, by decide⟩

/-- Counterexample instance for C6: a single process named "Q" declaring
affinity with the name "Q".  The name resolves (to the process itself), so
no warning fires, and the target list — every OTHER process named "Q" —
is empty, so the builder skips the clause (main.py lines 262-264). -/
def I6 : Inst :=
  { servers := [{ name := "s0", ram := 1, cpu := 1, disk := 1, bandwidth := 1 }],
    processes := [{ name := "Q", ram := Frac.make 1 10, disk := Frac.make 1 10,
                    bandwidth := Frac.make 1 10, affinity := ["Q"] }],
    constraints := {} }

/-- Solver assignment for `I6`: the lone replica on the lone server. -/
def x6 : Assign := fun p r s =>
  decide ((p, r, s) ∈ [((0 : ℕ), (0 : ℕ), (0 : ℕ))])

lemma supported_I6 : Supported I6 x6 := by
  intro p r s h
  simp only [x6, List.mem_cons, List.not_mem_nil, or_false,
    decide_eq_true_eq, Prod.mk.injEq] at h
  obtain ⟨hp, hr, hs⟩ := h
  subst hp; subst hr; subst hs; decide

lemma solveSat_I6 : SolveSat logStub I6 x6 := ⟨supported_I6, by decide⟩

/-- Witness instance for C6: process "A" has affinity ["B", "C"]; "B"
exists, "C" does not (so building warns and drops that constraint). -/
def I6w : Inst :=
  { servers := [{ name := "s0", ram := 1, cpu := 1, disk := 1, bandwidth := 1 }],
    processes := [{ name := "A", ram := Frac.make 1 10, disk := Frac.make 1 10,
                    bandwidth := Frac.make 1 10, affinity := ["B", "C"] },
                  { name := "B", ram := Frac.make 1 10, disk := Frac.make 1 10,
                    bandwidth := Frac.make 1 10 }],
    constraints := {} }

/-- Solver assignment for `I6w`: both processes on the lone server,
satisfying the emitted affinity clause. -/
def x6w : Assign := fun p r s =>
  decide ((p, r, s) ∈ [((0 : ℕ), (0 : ℕ), (0 : ℕ)), (1, 0, 0)])

lemma supported_I6w : Supported I6w x6w := by
  intro p r s h
  simp only [x6w, List.mem_cons, List.not_mem_nil, or_false,
    decide_eq_true_eq, Prod.mk.injEq] at h
  rcases h with ⟨hp, hr, hs⟩ | ⟨hp, hr, hs⟩ <;> subst hp <;> subst hr <;> subst hs <;> decide

lemma solveSat_I6w : SolveSat logStub I6w x6w := ⟨supported_I6w, by decide⟩

/-- Counterexample instance for C8: servers of RAM 3 and 1 (equal CPU) and
one redundant process over ["A", "B"], so the base-replica total is 1
while the effective total is 2.  On server 0 the capacity ratio is 5/8:
the code's target is `int(1 * 5/8) = 0`, the claim's is
`round(2 * 5/8) = 1`. -/
def I8 : Inst :=
  { servers := [{ name := "s0", ram := 3, cpu := 1, disk := 1, bandwidth := 1,
                  geoLocation := some "A" },
                { name := "s1", ram := 1, cpu := 1, disk := 1, bandwidth := 1,
                  geoLocation := some "B" }],
    processes := [{ name := "P", ram := Frac.make 1 10, disk := Frac.make 1 10,
                    bandwidth := Frac.make 1 10,
                    locationPolicy := some "redundant", location := ["A", "B"] }],
    constraints := { loadBalancingStrategy := some "weighted-capacity" } }

/-- Witness instance for C8: one server, one process, weighted-capacity
strategy; the target is `int(1 * 1) = 1` and the deviation is 0. -/
def I8w : Inst :=
  { servers := [{ name := "s0", ram := 1, cpu := 1, disk := 1, bandwidth := 1 }],
    processes := [{ name := "P", ram := Frac.make 1 10, disk := Frac.make 1 10,
                    bandwidth := Frac.make 1 10 }],
    constraints := { loadBalancingStrategy := some "weighted-capacity" } }

/-- Solver assignment for `I8w`: the lone replica on the lone server. -/
def x8w : Assign := fun p r s =>
  decide ((p, r, s) ∈ [((0 : ℕ), (0 : ℕ), (0 : ℕ))])

lemma supported_I8w : Supported I8w x8w := by
  intro p r s h
  simp only [x8w, List.mem_cons, List.not_mem_nil, or_false,
    decide_eq_true_eq, Prod.mk.injEq] at h
  obtain ⟨hp, hr, hs⟩ := h
  subst hp; subst hr; subst hs; decide

lemma solveSat_I8w : SolveSat logStub I8w x8w := ⟨supported_I8w, by decide⟩

/-- Witness instance for C10: `max-energy-consumption-per-server: 0`
(falsy, so no energy constraint is emitted) and a five-replica process
whose per-placement energy term is huge. -/
def I10 : Inst :=
  { servers := [{ name := "s0", ram := 1, cpu := 100, disk := 1, bandwidth := 1 }],
    processes := [{ name := "P", ram := 100, disk := 1, bandwidth := 1,
                    replicas := 5 }],
    constraints := { maxEnergyConsumptionPerServer := some 0 } }

/-- An assignment placing everything everywhere: energy usage is enormous,
yet the (absent) energy constraint holds vacuously. -/
def xAll : Assign := fun _ _ _ => true

lemma SolveSat.supported {l : Frac → Frac} {I : Inst} {x : Assign}
    (h : SolveSat l I x) : Supported I x := h.1

lemma SolveSat.unique {l : Frac → Frac} {I : Inst} {x : Assign}
    (h : SolveSat l I x) : UniqueOK I x := by
  obtain ⟨-, hu, -, -, -, -, -, -, -, -, -, -, -, -, -, -⟩ := h
  exact hu

lemma SolveSat.chunk {l : Frac → Frac} {I : Inst} {x : Assign}
    (h : SolveSat l I x) : RedundantChunkOK I x := by
  obtain ⟨-, -, -, hc, -, -, -, -, -, -, -, -, -, -, -, -⟩ := h
  exact hc

lemma SolveSat.redundantDistinct {l : Frac → Frac} {I : Inst} {x : Assign}
    (h : SolveSat l I x) : RedundantDistinctOK I x := by
  obtain ⟨-, -, -, -, hd, -, -, -, -, -, -, -, -, -, -, -⟩ := h
  exact hd

lemma SolveSat.osFamily {l : Frac → Frac} {I : Inst} {x : Assign}
    (h : SolveSat l I x) : OsOK I x := by
  obtain ⟨-, -, -, -, -, -, ho, -, -, -, -, -, -, -, -, -⟩ := h
  exact ho

lemma SolveSat.affinity {l : Frac → Frac} {I : Inst} {x : Assign}
    (h : SolveSat l I x) : AffinityOK I x := by
  obtain ⟨-, -, -, -, -, -, -, -, ha, -, -, -, -, -, -, -⟩ := h
  exact ha

lemma SolveSat.resource {l : Frac → Frac} {I : Inst} {x : Assign}
    (h : SolveSat l I x) : ResourceOK I x := by
  obtain ⟨-, -, -, -, -, -, -, -, -, -, hr, -, -, -, -, -⟩ := h
  exact hr

lemma SolveSat.forcedIdle {l : Frac → Frac} {I : Inst} {x : Assign}
    (h : SolveSat l I x) : ForcedIdleOK I x := by
  obtain ⟨-, -, -, -, -, -, -, -, -, -, -, -, -, -, hf, -⟩ := h
  exact hf

lemma SolveSat.loadBalance {l : Frac → Frac} {I : Inst} {x : Assign}
    (h : SolveSat l I x) : LoadBalanceOK I x := by
  obtain ⟨-, -, -, -, -, -, -, -, -, -, -, -, -, -, -, hl⟩ := h
  exact hl

/-- C1, counterexample: the solve of `I1` places both effective replicas of
the 0.6-RAM process on the single server, satisfying every emitted
constraint (the resource sums cover only base replicas), yet the effective
RAM demand 1200 exceeds the scaled cap 1000. -/
theorem capacity_claim_counterexample :
    SolveSat logStub I1 x1 ∧ ¬ ClaimCapacity I1 x1 :=
  ⟨solveSat_I1, by decide⟩

/-- C1, amended: in every successful solve, each server's scaled demand
sums over replica indices BELOW THE BASE replica count (the sums the
resource loops actually build) are bounded by the scaled capacity times
the percentage cap, for each of ram, cpu, disk and bandwidth. -/
theorem capacity_caps_bound_base_usage (l : Frac → Frac) (I : Inst) (x : Assign)
    (h : SolveSat l I x) :
    ∀ s < nS I,
      ram_usage I x s ≤ ramCap I s ∧
      cpu_usage I x s ≤ cpuCap I s ∧
      disk_usage I x s ≤ diskCap I s ∧
      bandwidth_usage I x s ≤ bandwidthCap I s := by
  intro s hs
  obtain ⟨h1, h2, h3, h4, -⟩ := SolveSat.resource h s hs
  exact ⟨h1, h2, h3, h4⟩

/-- C1, witness: the amended bound evaluated on the concrete solve of I1. -/
theorem capacity_caps_bound_base_usage_witness :
    SolveSat logStub I1 x1 ∧
    (∀ s < nS I1,
      ram_usage I1 x1 s ≤ ramCap I1 s ∧
      cpu_usage I1 x1 s ≤ cpuCap I1 s ∧
      disk_usage I1 x1 s ≤ diskCap I1 s ∧
      bandwidth_usage I1 x1 s ≤ bandwidthCap I1 s) :=
  ⟨solveSat_I1, capacity_caps_bound_base_usage logStub I1 x1 solveSat_I1⟩

/-- C2: for every process, the variable layout has exactly the effective
replica indices — `replicas` when the policy is absent or `single`,
`replicas * len(location)` when it is `redundant` with a non-empty
location list; indices at or above the effective count carry no variable,
and every effective replica is placed on exactly one server. -/
theorem replica_layout_and_uniqueness (l : Frac → Frac) (I : Inst) (x : Assign)
    (h : SolveSat l I x) :
    ∀ p < nP I,
      (((prc I p).locationPolicy = none ∨ (prc I p).locationPolicy = some "single") →
          effectiveReplicas (prc I p) = (prc I p).replicas) ∧
      (((prc I p).locationPolicy = some "redundant" ∧ (prc I p).location ≠ []) →
          effectiveReplicas (prc I p) = (prc I p).replicas * (prc I p).location.length) ∧
      (∀ r, effectiveReplicas (prc I p) ≤ r → ∀ s, x p r s = false) ∧
      (∀ r < effectiveReplicas (prc I p),
          (∑ s ∈ Finset.range (nS I), bcount (x p r s)) = 1) := by
  intro p hp
  refine ⟨?_, ?_, ?_, ?_⟩
  · rintro (hpol | hpol) <;> simp [effectiveReplicas, hpol]
  · rintro ⟨h1, h2⟩
    simp [effectiveReplicas, h1, h2]
  · intro r hr s
    cases hb : x p r s with
    | false => rfl
    | true =>
        have h2 := (h.supported p r s hb).2.1
        omega
  · intro r hr
    exact h.unique p hp r hr

/-- C2, witness: the layout facts evaluated on the concrete solve of I1. -/
theorem replica_layout_and_uniqueness_witness :
    SolveSat logStub I1 x1 ∧
    (∀ p < nP I1,
      (((prc I1 p).locationPolicy = none ∨ (prc I1 p).locationPolicy = some "single") →
          effectiveReplicas (prc I1 p) = (prc I1 p).replicas) ∧
      (((prc I1 p).locationPolicy = some "redundant" ∧ (prc I1 p).location ≠ []) →
          effectiveReplicas (prc I1 p) = (prc I1 p).replicas * (prc I1 p).location.length) ∧
      (∀ r, effectiveReplicas (prc I1 p) ≤ r → ∀ s, x1 p r s = false) ∧
      (∀ r < effectiveReplicas (prc I1 p),
          (∑ s ∈ Finset.range (nS I1), bcount (x1 p r s)) = 1)) :=
  ⟨solveSat_I1, replica_layout_and_uniqueness logStub I1 x1 solveSat_I1⟩

/-- C4, counterexample: the solve of `I4` satisfies every emitted
constraint, yet effective replica 1 of the Linux process sits on the
Windows server — the OS loop only constrains replica indices below the
base count. -/
theorem os_claim_counterexample :
    SolveSat logStub I4 x4 ∧ ¬ ClaimOsCompat I4 x4 :=
  ⟨solveSat_I4, by decide⟩

/-- C4, amended: the builder forces `x[p,r,s] = 0` for an os-incompatible
server only for replica indices BELOW THE BASE replica count, so in every
successful solve no such base-indexed replica sits on an os-incompatible
server. -/
theorem os_filter_on_base_replicas (l : Frac → Frac) (I : Inst) (x : Assign)
    (h : SolveSat l I x) :
    ∀ p < nP I, ∀ r < (prc I p).replicas, ∀ s < nS I,
      osConflict (prc I p).os (srv I s).os = true → x p r s = false :=
  fun p hp r hr s hs hc => SolveSat.osFamily h p hp r hr s hs hc

/-- C4, witness: the amended OS filter evaluated on the solve of I4. -/
theorem os_filter_on_base_replicas_witness :
    SolveSat logStub I4 x4 ∧
    (∀ p < nP I4, ∀ r < (prc I4 p).replicas, ∀ s < nS I4,
      osConflict (prc I4 p).os (srv I4 s).os = true → x4 p r s = false) :=
  ⟨solveSat_I4, os_filter_on_base_replicas logStub I4 x4 solveSat_I4⟩

/-- C7, counterexample: the claimed exit-code contract is false — main.py
never calls `sys.exit`, so the infeasible and load-error paths also exit
with status 0. -/
theorem exit_code_claim_counterexample : ¬ ClaimExitCodes := by decide

/-- C7, amended: the process exit code of `python main.py` is 0 for every
outcome — success, infeasibility and configuration-load failure alike;
failures are signalled only through printed messages. -/
theorem exit_code_always_zero : ∀ o : MainOutcome, mainExitCode o = 0 := by
  intro o
  cases o <;> rfl

/-- C10: with `max-energy-consumption-per-server` absent or set to the
falsy value 0, the energy family constrains nothing (any assignment
satisfies it, however large its energy usage); a per-server energy cap is
enforced exactly when the configured value is truthy. -/
theorem energy_constraint_requires_truthy_value (l : Frac → Frac) (I : Inst)
    (x : Assign) :
    (∀ e, I.constraints.maxEnergyConsumptionPerServer = some e → e.num = 0 →
       EnergyOK l I x) ∧
    (I.constraints.maxEnergyConsumptionPerServer = none → EnergyOK l I x) ∧
    (energyActive I.constraints = true →
       (EnergyOK l I x ↔ ∀ s < nS I, energy_usage l I x s ≤ energyCapVal I.constraints)) := by
  refine ⟨?_, ?_, ?_⟩
  · intro e he h0 hact
    exfalso
    simp [energyActive, he, h0] at hact
  · intro hn hact
    exfalso
    simp [energyActive, hn] at hact
  · intro hact
    exact ⟨fun hok => hok hact, fun hok _ => hok⟩

/-- C10, witness: on `I10` (energy cap configured as 0) the all-true
assignment has energy usage 500000000 on server 0 and still satisfies the
(vacuous) energy family. -/
theorem energy_constraint_requires_truthy_value_witness :
    EnergyOK logStub I10 xAll ∧
    (500000000 : ℤ) ≤ energy_usage logStub I10 xAll 0 :=
  ⟨(energy_constraint_requires_truthy_value logStub I10 xAll).1 0 rfl rfl,
   by decide⟩

/-- C5, counterexample: the solve of `I5` satisfies every emitted
constraint including the redundancy constraint (its used-server booleans
count only base replicas), yet both servers carry an effective replica, so
no server carries zero replicas. -/
theorem forced_idle_claim_counterexample :
    SolveSat logStub I5 x5 ∧ ¬ ClaimForcedIdle I5 x5 :=
  ⟨solveSat_I5, by decide⟩

/-- C5, amended: with `servers-for-redundancy = k > 0`, in every
successful solve at least `k` servers carry zero replicas counting only
replica indices BELOW THE BASE replica count (the sums the used-server
booleans are linked to). -/
theorem forced_idle_counts_base_replicas (l : Frac → Frac) (I : Inst) (x : Assign)
    (h : SolveSat l I x) (hk : 0 < I.constraints.serversForRedundancy) :
    (I.constraints.serversForRedundancy : ℤ) ≤
      (((Finset.range (nS I)).filter (fun s => process_count I x s = 0)).card : ℤ) := by
  have hfi := SolveSat.forcedIdle h hk
  have hpart := Finset.filter_card_add_filter_neg_card_eq_card
    (s := Finset.range (nS I)) (fun s => 1 ≤ process_count I x s)
  have hcongr : (Finset.range (nS I)).filter (fun s => ¬ 1 ≤ process_count I x s)
      = (Finset.range (nS I)).filter (fun s => process_count I x s = 0) := by
    apply Finset.filter_congr
    intro s _
    constructor
    · intro hlt; omega
    · intro hz; omega
  rw [hcongr, Finset.card_range] at hpart
  rw [usedServerCount] at hfi
  omega

/-- C5, witness: the amended bound evaluated on the solve of I5 (server 1
carries only the chunk-"B" replica, so it counts as idle). -/
theorem forced_idle_counts_base_replicas_witness :
    SolveSat logStub I5 x5 ∧ 0 < I5.constraints.serversForRedundancy ∧
    (I5.constraints.serversForRedundancy : ℤ) ≤
      (((Finset.range (nS I5)).filter (fun s => process_count I5 x5 s = 0)).card : ℤ) :=
  ⟨solveSat_I5, by decide,
   forced_idle_counts_base_replicas logStub I5 x5 solveSat_I5 (by decide)⟩

/-- C6, counterexample: in `I6` the process named "Q" lists affinity "Q";
the name resolves, so no warning fires, but the builder skips the clause
because no OTHER process bears the name — the solve places the replica
with no co-located partner, falsifying the claimed unconditional clause. -/
theorem affinity_claim_counterexample :
    SolveSat logStub I6 x6 ∧ ¬ ClaimAffinity I6 x6 :=
  ⟨solveSat_I6, by decide⟩

/-- C6, amended: an unresolved affinity target draws a warning and is
dropped without aborting; a resolved target yields, for every base replica
and server, the co-location clause — but only when the candidate target
list (replicas of OTHER processes with that name) is non-empty; the
builder silently skips the clause otherwise. -/
theorem affinity_warning_and_clause (l : Frac → Frac) (I : Inst) (x : Assign)
    (h : SolveSat l I x) :
    ∀ p < nP I, ∀ q ∈ (prc I p).affinity,
      (q ∉ processNames I → ((prc I p).name, q) ∈ affinityWarnings I) ∧
      (q ∈ processNames I → ∀ r1 < (prc I p).replicas, ∀ s < nS I,
         affinityTargets I p q ≠ [] → x p r1 s = true →
           ∃ t ∈ affinityTargets I p q, x t.1 t.2 s = true) := by
  intro p hp q hq
  refine ⟨?_, ?_⟩
  · intro hqn
    simp only [affinityWarnings, List.mem_flatMap, List.mem_map, List.mem_filter,
      List.mem_range, decide_eq_true_eq]
    exact ⟨p, hp, q, ⟨hq, hqn⟩, rfl⟩
  · intro hqy r1 hr1 s hs hne hx
    exact SolveSat.affinity h p hp q hq hqy r1 hr1 s hs hne hx

/-- C6, witness: on the solve of `I6w`, the missing name "C" is warned
about, and the resolved name "B" has its clause satisfied. -/
theorem affinity_warning_and_clause_witness :
    SolveSat logStub I6w x6w ∧
    (∀ p < nP I6w, ∀ q ∈ (prc I6w p).affinity,
      (q ∉ processNames I6w → ((prc I6w p).name, q) ∈ affinityWarnings I6w) ∧
      (q ∈ processNames I6w → ∀ r1 < (prc I6w p).replicas, ∀ s < nS I6w,
         affinityTargets I6w p q ≠ [] → x6w p r1 s = true →
           ∃ t ∈ affinityTargets I6w p q, x6w t.1 t.2 s = true)) :=
  ⟨solveSat_I6w, affinity_warning_and_clause logStub I6w x6w solveSat_I6w⟩

/-- C8, counterexample: on `I8` the builder's target for server 0 is
`int(1 * 5/8) = 0` (truncation, base-replica total 1), while the claimed
formula `round(R_eff * ratio)` with the effective total 2 gives
`round(5/4) = 1`. -/
theorem weighted_target_claim_counterexample :
    targetProcessCount I8 0 = 0 ∧ claimTargetProcessCount I8 0 = 1 ∧
    ¬ ClaimWeightedTarget I8 := by
  refine ⟨by decide, by decide, ?_⟩
  intro hcl
  have := hcl 0 (by decide)
  revert this
  decide

/-- C8, amended: under the weighted-capacity strategy the target is
`int((Σ_p base_replicas) * capacity_ratio)` — float TRUNCATION of the
BASE-replica total — and in every successful solve the deviation
`process_count - target` admits an absolute-deviation value in [0, 100]
satisfying `abs ≥ dev` and `abs ≥ -dev` (the variable domains force the
deviation into [-100, 100]). -/
theorem weighted_capacity_target_and_deviation (l : Frac → Frac) (I : Inst)
    (x : Assign) (h : SolveSat l I x)
    (hs : I.constraints.loadBalancingStrategy = some "weighted-capacity") :
    ∀ s < nS I,
      targetProcessCount I s
        = fracToInt (Frac.ofNat (sumBaseReplicas I) * capacityRatio I s) ∧
      ∃ d a : ℤ,
        d = (process_count I x s : ℤ) - targetProcessCount I s ∧
        -100 ≤ d ∧ d ≤ 100 ∧ 0 ≤ a ∧ a ≤ 100 ∧ d ≤ a ∧ -d ≤ a := by
  intro s hss
  obtain ⟨hlo, hhi⟩ := (SolveSat.loadBalance h).2 hs s hss
  refine ⟨rfl, (process_count I x s : ℤ) - targetProcessCount I s,
    |(process_count I x s : ℤ) - targetProcessCount I s|,
    rfl, hlo, hhi, abs_nonneg _, abs_le.mpr ⟨hlo, hhi⟩, le_abs_self _, neg_le_abs _⟩

/-- C8, witness: the amended statement on the solve of `I8w` (target 1,
deviation 0). -/
theorem weighted_capacity_target_and_deviation_witness :
    SolveSat logStub I8w x8w ∧
    I8w.constraints.loadBalancingStrategy = some "weighted-capacity" ∧
    (∀ s < nS I8w,
      targetProcessCount I8w s
        = fracToInt (Frac.ofNat (sumBaseReplicas I8w) * capacityRatio I8w s) ∧
      ∃ d a : ℤ,
        d = (process_count I8w x8w s : ℤ) - targetProcessCount I8w s ∧
        -100 ≤ d ∧ d ≤ 100 ∧ 0 ≤ a ∧ a ≤ 100 ∧ d ≤ a ∧ -d ≤ a) :=
  ⟨solveSat_I8w, rfl,
   weighted_capacity_target_and_deviation logStub I8w x8w solveSat_I8w rfl⟩

/-- The arithmetic core of the percentage branch: `100 * P / 100` equals
`P` as a rational value. -/
lemma frac_hundred_mul_div (P : ℤ) :
    Frac.eqv (Frac.ofNat 100 * Frac.ofInt P / Frac.ofNat 100) (Frac.ofInt P) := by
  show ((100 * P) * 1) * 1 = P * ((1 * 1) * 100)
  ring

/-- C9: the constraint-side and report-side resolutions of `max-daily-cost`
are the same function; a string containing `%` resolves to
`safe_percentage(value)` dollars (the percentage of the default $100
budget, so "p%" caps at p dollars), and a numeric value is used directly
as a dollar amount. -/
theorem daily_cost_cap_parsing :
    ∀ v : CVal,
      reportMaxDailyCost v = resolveMaxDailyCost v ∧
      (∀ w, v = CVal.str w → '%' ∈ w →
        ∃ c, resolveMaxDailyCost v = some c ∧
          Frac.eqv c (Frac.ofInt (safe_percentage (some v) 100))) ∧
      (∀ q, v = CVal.num q → resolveMaxDailyCost v = some q) := by
  intro v
  refine ⟨?_, ?_, ?_⟩
  · cases v <;> rfl
  · rintro w rfl hw
    refine ⟨_, ?_, frac_hundred_mul_div _⟩
    simp [resolveMaxDailyCost, hw]
  · rintro q rfl
    rfl

/-- C9, witness: the string "50%" resolves to a $50 cap at both sites, and
`safe_percentage` evaluates it to 50. -/
theorem daily_cost_cap_parsing_witness :
    ('%' ∈ ['5', '0', '%']) ∧
    (∃ c, resolveMaxDailyCost (CVal.str ['5', '0', '%']) = some c ∧
       Frac.eqv c (Frac.ofInt (safe_percentage (some (CVal.str ['5', '0', '%'])) 100))) ∧
    safe_percentage (some (CVal.str ['5', '0', '%'])) 100 = 50 :=
  ⟨by decide,
   (daily_cost_cap_parsing (CVal.str ['5', '0', '%'])).2.1 ['5', '0', '%'] rfl (by decide),
   by decide⟩

/-- C3, counterexample: in the solve of `I1`, chunk 1 (location "B", which
has no server) has its replica on the "A" server: the chunk carries 0
replicas in its own location instead of `base_replicas`, and a chunk
replica sits on a server outside the chunk's location. -/
theorem redundant_chunk_claim_counterexample :
    SolveSat logStub I1 x1 ∧ ¬ ClaimRedundantChunks I1 x1 :=
  ⟨solveSat_I1, by decide⟩

/-- C3, amended: in every successful solve, a chunk of a redundant process
whose location CONTAINS AT LEAST ONE SERVER has exactly `base_replicas`
replicas on that location's servers, and each of its replicas sits only on
servers of that location; in-chunk pairwise distinctness holds for every
chunk whenever `base_replicas > 1`.  Chunks whose location has no server
get no placement constraint at all. -/
theorem redundant_chunks_in_populated_locations (l : Frac → Frac) (I : Inst)
    (x : Assign) (h : SolveSat l I x) :
    ∀ p < nP I, (prc I p).locationPolicy = some "redundant" →
      (prc I p).location ≠ [] →
      (∀ i < (prc I p).location.length,
         locationServers I (chunkLocation (prc I p) i) ≠ [] →
           ((∑ r ∈ Finset.Ico (i * (prc I p).replicas) ((i + 1) * (prc I p).replicas),
               ((locationServers I (chunkLocation (prc I p) i)).map
                  (fun s => bcount (x p r s))).sum) = (prc I p).replicas
            ∧ ∀ r ∈ Finset.Ico (i * (prc I p).replicas) ((i + 1) * (prc I p).replicas),
                ∀ s < nS I, x p r s = true →
                  (srv I s).geoLocation = some (chunkLocation (prc I p) i)))
      ∧ (1 < (prc I p).replicas →
           ∀ i < (prc I p).location.length,
             ∀ r1 ∈ Finset.Ico (i * (prc I p).replicas) ((i + 1) * (prc I p).replicas),
               ∀ r2 ∈ Finset.Ico (r1 + 1) ((i + 1) * (prc I p).replicas),
                 ∀ s < nS I, bcount (x p r1 s) + bcount (x p r2 s) ≤ 1) := by
  intro p hp hpol hloc
  have heff : effectiveReplicas (prc I p)
      = (prc I p).replicas * (prc I p).location.length := by
    simp [effectiveReplicas, hpol, hloc]
  constructor
  · intro i hi hls
    obtain ⟨hsum, hper⟩ := SolveSat.chunk h p hp hpol hloc i hi hls
    refine ⟨hsum, ?_⟩
    intro r hr s hs hx
    by_contra hgeo
    have hrEff : r < effectiveReplicas (prc I p) := by
      have hr2 := (Finset.mem_Ico.mp hr).2
      have hstep : (i + 1) * (prc I p).replicas
          ≤ (prc I p).location.length * (prc I p).replicas :=
        Nat.mul_le_mul_right _ hi
      rw [heff, Nat.mul_comm]
      omega
    have huniq := SolveSat.unique h p hp r hrEff
    have hlocSum := hper r hr
    have hnd : (locationServers I (chunkLocation (prc I p) i)).Nodup :=
      (List.nodup_range _).filter _
    have hLsum :
        ∑ t ∈ (locationServers I (chunkLocation (prc I p) i)).toFinset,
          bcount (x p r t) = 1 := by
      rw [List.sum_toFinset _ hnd]
      exact hlocSum
    have hsub : (locationServers I (chunkLocation (prc I p) i)).toFinset
        ⊆ Finset.range (nS I) := by
      intro t ht
      rw [List.mem_toFinset] at ht
      have := (List.mem_filter.mp ht).1
      exact Finset.mem_range.mpr (List.mem_range.mp this)
    have hsnot : s ∉ (locationServers I (chunkLocation (prc I p) i)).toFinset := by
      rw [List.mem_toFinset]
      intro hmem
      have hdec := (List.mem_filter.mp hmem).2
      rw [decide_eq_true_eq] at hdec
      exact hgeo hdec
    have hsplit :
        (∑ t ∈ Finset.range (nS I)
            \ (locationServers I (chunkLocation (prc I p) i)).toFinset,
          bcount (x p r t))
        + (∑ t ∈ (locationServers I (chunkLocation (prc I p) i)).toFinset,
            bcount (x p r t))
        = ∑ t ∈ Finset.range (nS I), bcount (x p r t) :=
      Finset.sum_sdiff hsub
    have hmem : s ∈ Finset.range (nS I)
        \ (locationServers I (chunkLocation (prc I p) i)).toFinset :=
      Finset.mem_sdiff.mpr ⟨Finset.mem_range.mpr hs, hsnot⟩
    have hone : 1 ≤ ∑ t ∈ Finset.range (nS I)
        \ (locationServers I (chunkLocation (prc I p) i)).toFinset,
          bcount (x p r t) := by
      have hle := Finset.single_le_sum (f := fun t => bcount (x p r t))
        (fun t _ => Nat.zero_le _) hmem
      simpa [bcount, hx] using hle
    omega
  · intro hB i hi r1 hr1 r2 hr2 s hs
    have heffgt : 1 < effectiveReplicas (prc I p) := by
      have hlen : 0 < (prc I p).location.length := List.length_pos.mpr hloc
      rw [heff]
      have := Nat.le_mul_of_pos_right (prc I p).replicas hlen
      omega
    exact SolveSat.redundantDistinct h p hp hpol heffgt i hi hB r1 hr1 r2 hr2 s hs

/-- C3, witness: the amended statement on the solve of `I1` (chunk 0's
location "A" is populated and holds its replica; distinctness is vacuous
at base count 1). -/
theorem redundant_chunks_in_populated_locations_witness :
    SolveSat logStub I1 x1 ∧
    (∀ p < nP I1, (prc I1 p).locationPolicy = some "redundant" →
      (prc I1 p).location ≠ [] →
      (∀ i < (prc I1 p).location.length,
         locationServers I1 (chunkLocation (prc I1 p) i) ≠ [] →
           ((∑ r ∈ Finset.Ico (i * (prc I1 p).replicas) ((i + 1) * (prc I1 p).replicas),
               ((locationServers I1 (chunkLocation (prc I1 p) i)).map
                  (fun s => bcount (x1 p r s))).sum) = (prc I1 p).replicas
            ∧ ∀ r ∈ Finset.Ico (i * (prc I1 p).replicas) ((i + 1) * (prc I1 p).replicas),
                ∀ s < nS I1, x1 p r s = true →
                  (srv I1 s).geoLocation = some (chunkLocation (prc I1 p) i)))
      ∧ (1 < (prc I1 p).replicas →
           ∀ i < (prc I1 p).location.length,
             ∀ r1 ∈ Finset.Ico (i * (prc I1 p).replicas) ((i + 1) * (prc I1 p).replicas),
               ∀ r2 ∈ Finset.Ico (r1 + 1) ((i + 1) * (prc I1 p).replicas),
                 ∀ s < nS I1, bcount (x1 p r1 s) + bcount (x1 p r2 s) ≤ 1)) :=
  ⟨solveSat_I1, redundant_chunks_in_populated_locations logStub I1 x1 solveSat_I1⟩

end Scheduler
